import Mathlib

/-!
Verification of the news-feed extraction pipeline of the `60s` service
(`ServiceWikiNews` and `ServiceReadhub`).

Strings are modelled as `List Char`.  Each regular-expression driven
operation of the source is embedded as an explicit left-to-right scanner
with the same match semantics as the JavaScript regex it mirrors
(leftmost match, lazy/greedy quantifier behaviour as analysed per
pattern, global continuation after the end of each match).  Scanners
that jump forward by a matched amount take a fuel argument; they are
always invoked with fuel `length + 1`, which is sufficient because every
step consumes at least one character.
-/

abbrev Str := List Char

def str (s : String) : Str := s.toList

/-- Whitespace class used by the embedding for the regex class and for
string trimming (the characters relevant to this source's markup). -/
def isWsChar (c : Char) : Bool :=
  c = ' ' || c = '\t' || c = '\n' || c = '\r' ||
  c = '\x0b' || c = '\x0c' || c = ' '

/-- Line terminators, which the regex dot does not match. -/
def isLineTerm (c : Char) : Bool :=
  c = '\n' || c = '\r' || c = ' ' || c = ' '

/-- Does `pat` occur at the very start of the second argument? -/
def strStarts : Str → Str → Bool
  | [], _ => true
  | _ :: _, [] => false
  | p :: ps, c :: cs => if p = c then strStarts ps cs else false

/-- Split at the first occurrence of `pat`: returns the part strictly
before the occurrence and the part strictly after it. -/
def splitFirst (pat : Str) : Str → Option (Str × Str)
  | [] => if strStarts pat [] then some ([], []) else none
  | c :: rest =>
    if strStarts pat (c :: rest) then some ([], (c :: rest).drop pat.length)
    else
      match splitFirst pat rest with
      | some (pre, post) => some (c :: pre, post)
      | none => none

/-- Does `pat` occur anywhere in `s`? -/
def hasSub (pat s : Str) : Bool := (splitFirst pat s).isSome

/-- A comparison of `pat` against `xs` hits a mismatch strictly inside
`xs` (so `pat` cannot start at the head of `xs ++ ys` for any `ys`). -/
def failsIn : Str → Str → Bool
  | [], _ => false
  | _ :: _, [] => false
  | p :: ps, x :: xs => if p = x then failsIn ps xs else true

/-- No occurrence of `pat` can begin at any offset of `xs`, even one
continuing into whatever follows `xs`. -/
def noStartIn (pat : Str) : Str → Bool
  | [] => true
  | x :: xs => failsIn pat (x :: xs) && noStartIn pat xs

/-- `String.prototype.split` on a literal pattern. -/
def splitOnSubAux (pat : Str) : Nat → Str → List Str
  | 0, s => [s]
  | n + 1, s =>
    match splitFirst pat s with
    | none => [s]
    | some (pre, post) => pre :: splitOnSubAux pat n post

def splitOnSub (pat s : Str) : List Str := splitOnSubAux pat (s.length + 1) s

/-- `String.prototype.replace` with a global literal pattern and a plain
replacement string (the replacement is not rescanned). -/
def replaceAllAux (pat rep : Str) : Nat → Str → Str
  | 0, s => s
  | n + 1, s =>
    match splitFirst pat s with
    | none => s
    | some (pre, post) => pre ++ rep ++ replaceAllAux pat rep n post

def replaceAll (pat rep s : Str) : Str := replaceAllAux pat rep (s.length + 1) s

/-- `String.prototype.trim`. -/
def trimStr (s : Str) : Str :=
  ((s.dropWhile isWsChar).reverse.dropWhile isWsChar).reverse

/-- Find the first occurrence of `pat` that is not preceded by any
character satisfying `stop`; return the gap before the occurrence and
the remainder after it.  This is the semantics of a lazy character
class (excluding `stop`) followed by the literal `pat`. -/
def seekBeforeP (pat : Str) (stop : Char → Bool) : Str → Option (Str × Str)
  | [] => none
  | c :: rest =>
    if strStarts pat (c :: rest) then some ([], (c :: rest).drop pat.length)
    else if stop c then none
    else
      match seekBeforeP pat stop rest with
      | some (gap, rem) => some (c :: gap, rem)
      | none => none

/-- Replace maximal whitespace runs that are immediately followed by
`target` with `target` alone: the semantics of a global replace of
whitespace-plus followed by a literal character. -/
def wsBeforeCharAux (target : Char) : Nat → Str → Str
  | 0, s => s
  | _ + 1, [] => []
  | n + 1, c :: rest =>
    if isWsChar c then
      let r2 := List.dropWhile isWsChar (c :: rest)
      match r2 with
      | t :: r3 =>
        if t = target then t :: wsBeforeCharAux target n r3
        else List.takeWhile isWsChar (c :: rest) ++ wsBeforeCharAux target n r2
      | [] => List.takeWhile isWsChar (c :: rest)
    else c :: wsBeforeCharAux target n rest

def wsBeforeChar (target : Char) (s : Str) : Str :=
  wsBeforeCharAux target (s.length + 1) s

/- Collapse every maximal whitespace run to a single space
(global replace of whitespace-plus by one space). -/
mutual
def collapseWs : Str → Str
  | [] => []
  | c :: rest => if isWsChar c then ' ' :: skipWs rest else c :: collapseWs rest

def skipWs : Str → Str
  | [] => []
  | c :: rest => if isWsChar c then skipWs rest else c :: collapseWs rest
end

/-- Strip markup tags: global replace of a literal angle wrapper with a
lazy non-closing character class inside. -/
def stripTagsAux : Nat → Str → Str
  | 0, s => s
  | n + 1, s =>
    match splitFirst ['<'] s with
    | none => s
    | some (pre, r1) =>
      match splitFirst ['>'] r1 with
      | none => s
      | some (_, r2) => pre ++ stripTagsAux n r2

def stripTags (s : Str) : Str := stripTagsAux (s.length + 1) s

/-- Global replace of an opening tag (tag name plus attributes up to the
first closing angle), a lazily matched body, and the given closing tag,
by `ins ++ body ++ app`.  Used for the list-markup conversions in
`#cleanHtml`. -/
def tagReplaceAux (openTag closeTag ins app : Str) : Nat → Str → Str
  | 0, s => s
  | n + 1, s =>
    match splitFirst openTag s with
    | none => s
    | some (pre, r1) =>
      match splitFirst ['>'] r1 with
      | none => s
      | some (_, r2) =>
        match splitFirst closeTag r2 with
        | none => s
        | some (inner, post) =>
          pre ++ ins ++ inner ++ app ++ tagReplaceAux openTag closeTag ins app n post

def ulReplace (s : Str) : Str :=
  tagReplaceAux (str "<ul") (str "</ul>") (str ": ") [] (s.length + 1) s

def liReplace (s : Str) : Str :=
  tagReplaceAux (str "<li") (str "</li>") (str "• ") [' '] (s.length + 1) s

/-- The fixed entity table of `#decodeHtmlEntities` / `#cleanHtml`,
applied in source order. -/
def decodeEntities (s : Str) : Str :=
  replaceAll (str "&nbsp;") (str " ")
    (replaceAll (str "&mdash;") (str "—")
      (replaceAll (str "&ndash;") (str "–")
        (replaceAll (str "&#39;") (str "'")
          (replaceAll (str "&quot;") (str "\"")
            (replaceAll (str "&gt;") (str ">")
              (replaceAll (str "&lt;") (str "<")
                (replaceAll (str "&amp;") (str "&") s)))))))

/-- `ServiceWikiNews.#cleanHtml` (the link-annotating variant of the
service): nested-list conversion, tag stripping, entity decoding, then
the whitespace/punctuation normalisation chain, in source order. -/
def cleanHtml (html : Str) : Str :=
  let processedHtml := liReplace (ulReplace html)
  let t1 := stripTags processedHtml
  let t2 := decodeEntities t1
  let t3 := collapseWs t2
  let t4 := replaceAll (str "• •") (str "•") t3
  let t5 := replaceAll (str ": •") (str ": ") t4
  let t6 := wsBeforeChar ':' t5
  let t7 := wsBeforeChar '.' t6
  trimStr t7

/-! ## Link processing (`ServiceWikiNews.#processItemLinks`) -/

def hrefPat : Str := str "href=\""

def wikipediaOrigin : Str := str "https://en.wikipedia.org"

/-- Relative-target absolutisation of the plain-anchor callback: a
target with a leading slash gets the source origin prefixed. -/
def resolveHref (href : Str) : Str :=
  if href.headD ' ' = '/' then wikipediaOrigin ++ href else href

/-- The annotation built for a plain anchor. -/
def plainLinkEntry (href text : Str) : Str :=
  text ++ str " (" ++ resolveHref href ++ str ")"

/-- The annotation built for an external-flagged anchor (its target is
kept verbatim). -/
def extLinkEntry (href text : Str) : Str :=
  text ++ str " (" ++ href ++ str ")"

/-- Try to match the external-anchor pattern at the start of `s`:
an anchor opener, at least one whitespace, a lazy gap (no closing
angle) up to the literal external-class marker, a lazy gap up to the
target attribute, the quoted target, the rest of the tag, and the
lazily matched anchor text (no line terminator) up to the closing tag.
Returns the remainder after the whole match and the annotation (made
only when both target and text are non-empty). -/
def tryExtAt (s : Str) : Option (Str × Option Str) :=
  if strStarts (str "<a") s then
    match s.drop 2 with
    | [] => none
    | w :: r1 =>
      if isWsChar w then
        match seekBeforeP (str "class=\"external") (fun c => c = '>') r1 with
        | none => none
        | some (_, r2) =>
          match seekBeforeP hrefPat (fun c => c = '>') r2 with
          | none => none
          | some (_, r3) =>
            match splitFirst ['"'] r3 with
            | none => none
            | some (href, r4) =>
              match splitFirst ['>'] r4 with
              | none => none
              | some (_, r5) =>
                match seekBeforeP (str "</a>") isLineTerm r5 with
                | none => none
                | some (text, r6) =>
                  some (r6, if href = [] || text = [] then none
                            else some (extLinkEntry href text))
      else none
  else none

/-- Scan for the first ws-preceded occurrence of the target attribute,
with no closing angle before it: the branch of the plain-anchor
pattern in which the optional attribute group is present (the group
ends in mandatory whitespace, so the occurrence directly after the
opener whitespace run belongs to the group-absent branch instead). -/
def seekWsHref : Str → Option Str
  | [] => none
  | [_] => none
  | a :: b :: cs =>
    if a = '>' then none
    else if isWsChar a && strStarts hrefPat (b :: cs) then
      some ((b :: cs).drop 6)
    else seekWsHref (b :: cs)

/-- Try to match the plain-anchor pattern at the start of `s`.  Returns
the remainder after the match, the replacement text (the anchor text)
and the annotation (made only when both target and text are
non-empty). -/
def tryPlainAt (s : Str) : Option (Str × Str × Option Str) :=
  if strStarts (str "<a") s then
    match s.drop 2 with
    | [] => none
    | w :: r1 =>
      if isWsChar w then
        let rest := List.dropWhile isWsChar r1
        let afterHref :=
          match seekWsHref rest with
          | some r => some r
          | none => if strStarts hrefPat rest then some (rest.drop 6) else none
        match afterHref with
        | none => none
        | some r2 =>
          match splitFirst ['"'] r2 with
          | none => none
          | some (href, r3) =>
            match splitFirst ['>'] r3 with
            | none => none
            | some (_, r4) =>
              match seekBeforeP (str "</a>") isLineTerm r4 with
              | none => none
              | some (text, r5) =>
                if href = [] || text = [] then some (r5, text, none)
                else some (r5, text, some (plainLinkEntry href text))
      else none
  else none

/-- Global scan of the external-anchor replace: each match is removed
from the text and its annotation pushed (unconditionally, in order). -/
def extScanAux : Nat → Str → List Str → Str × List Str
  | 0, s, acc => (s, acc)
  | _ + 1, [], acc => ([], acc)
  | n + 1, c :: rest, acc =>
    match tryExtAt (c :: rest) with
    | some (rem, entry) =>
      let acc2 := match entry with
        | some e => acc ++ [e]
        | none => acc
      extScanAux n rem acc2
    | none =>
      let p := extScanAux n rest acc
      (c :: p.1, p.2)

def extScanTop (s : Str) : Str × List Str := extScanAux (s.length + 1) s []

/-- Global scan of the plain-anchor replace: each match is replaced by
its anchor text and its annotation pushed unless already present
(de-duplication by exact string). -/
def plainScanAux : Nat → Str → List Str → Str × List Str
  | 0, s, acc => (s, acc)
  | _ + 1, [], acc => ([], acc)
  | n + 1, c :: rest, acc =>
    match tryPlainAt (c :: rest) with
    | some (rem, repl, entry) =>
      let acc2 := match entry with
        | some e => if e ∈ acc then acc else acc ++ [e]
        | none => acc
      let p := plainScanAux n rem acc2
      (repl ++ p.1, p.2)
    | none =>
      let p := plainScanAux n rest acc
      (c :: p.1, p.2)

def plainScanTop (s : Str) : Str × List Str := plainScanAux (s.length + 1) s []

/-- `ServiceWikiNews.#processItemLinks`: external-flagged anchors are
removed first and their annotations collected, then plain anchors are
replaced by their text with de-duplicated annotations, and the external
annotations are appended after the plain ones. -/
def processItemLinks (html : Str) : Str × List Str :=
  let er := extScanTop html
  let pr := plainScanTop er.1
  (pr.1, pr.2 ++ er.2)

/-! ## Category and item extraction (`ServiceWikiNews.#extractNewsContent`,
`ServiceWikiNews.#extractCategoryItems`) -/

structure NewsItem where
  text : Str
deriving DecidableEq, Repr

structure NewsCategory where
  title : Str
  items : List NewsItem
deriving DecidableEq, Repr

/-- JS `Array.prototype.join` with a separator. -/
def joinSep (sep : Str) : List Str → Str
  | [] => []
  | [x] => x
  | x :: y :: xs => x ++ sep ++ joinSep sep (y :: xs)

/-- The captures of the global list-item exec loop: the lazily matched
bodies of each list-item element, in order. -/
def extractLiAux : Nat → Str → List Str
  | 0, _ => []
  | n + 1, s =>
    match splitFirst (str "<li>") s with
    | none => []
    | some (_, r1) =>
      match splitFirst (str "</li>") r1 with
      | none => []
      | some (inner, post) => inner :: extractLiAux n post

def extractLiContents (s : Str) : List Str := extractLiAux (s.length + 1) s

/-- `ServiceWikiNews.#extractCategoryItems`: each non-blank list-item
body is link-processed, cleaned, gets its annotation list appended when
non-empty, and is kept when the final trimmed text is non-blank; when
no list item yields anything, the whole section body is cleaned and
used as a single item. -/
def extractCategoryItems (sectionContent : Str) : List NewsItem :=
  let items := (extractLiContents sectionContent).filterMap (fun cap =>
    if cap = [] then none
    else
      let itemHtml := trimStr cap
      if itemHtml = [] then none
      else
        let pr := processItemLinks itemHtml
        let finalText :=
          if pr.2 ≠ [] then cleanHtml pr.1 ++ str " [" ++ joinSep (str ", ") pr.2 ++ str "]"
          else cleanHtml pr.1
        if trimStr finalText ≠ [] then some { text := trimStr finalText } else none)
  if items = [] then
    let plainContent := cleanHtml sectionContent
    if trimStr plainContent ≠ [] then [{ text := trimStr plainContent }] else []
  else items

def contentDivMarker : Str := str "<div class=\"current-events-content description\">"

def closeDivLit : Str := str "</div>"

def pbMarker : Str := str "<p><b>"

/-- The first match of the content-block pattern: the literal marker
opening tag, a lazily matched body, and the literal closing tag.  This
is the element the extractor reads (`contentDivs[0]`). -/
def firstContentDivMatch (html : Str) : Option Str :=
  match splitFirst contentDivMarker html with
  | none => none
  | some (_, rest) =>
    match splitFirst closeDivLit rest with
    | none => none
    | some (inner, _) => some (contentDivMarker ++ inner ++ closeDivLit)

/-- `ServiceWikiNews.#extractNewsContent`: locate the content block,
split it on the bold-heading marker, build the implicit uncategorised
category from the part before the first heading, one named category per
later split segment (skipping segments without a heading close or a
paragraph close), and fall back to sentinel categories when nothing is
found at any stage. -/
def extractNewsContent (html : Str) : List NewsCategory :=
  match firstContentDivMatch html with
  | none =>
    [{ title := str "Error",
       items := [{ text := str "No news content sections found in the HTML" }] }]
  | some firstContentDiv =>
    let categorySections := splitOnSub pbMarker firstContentDiv
    if categorySections.length ≤ 1 then
      [{ title := str "Uncategorized",
         items := [{ text := str "No categories found in content" }] }]
    else
      let headCats :=
        if trimStr (categorySections.headD []) ≠ [] then
          let uncategorizedItems := extractCategoryItems (categorySections.headD [])
          if uncategorizedItems ≠ [] then
            [{ title := str "Uncategorized", items := uncategorizedItems }]
          else []
        else []
      let tailCats := categorySections.tail.filterMap (fun sec =>
        match splitFirst (str "</b>") sec with
        | none => none
        | some (tpre, _) =>
          match splitFirst (str "</p>") sec with
          | none => none
          | some (_, sectionContent) =>
            let items := extractCategoryItems sectionContent
            if items ≠ [] then some { title := trimStr tpre, items := items }
            else none)
      let categories := headCats ++ tailCats
      if categories = [] then
        [{ title := str "Uncategorized",
           items := [{ text := str "No news items could be parsed from the source" }] }]
      else categories

/-! ## Fetch and cache policy (`ServiceWikiNews.#fetch`,
`ServiceReadhub.#fetch`)

The upstream HTTP client is a black box: a single request either
delivers a body or fails (non-2xx status or transport error — both are
thrown and land in the catch block, so one constructor covers both).
The clock and the locale formatting helpers (`Common.localeDate`,
`Common.localeTime`, and the JavaScript `Date` component accessors) are
parameters of the model; no theorem depends on their concrete
behaviour.  Each fetch returns the result (the feed, or a failure for
the propagated throw), the resulting cache state, and whether an
upstream request was issued. -/

inductive UpstreamResult where
  | ok (html : Str)
  | fail
deriving DecidableEq

structure WikiNewsItem where
  date : Str
  news : List NewsCategory
  source_url : Str
  updated : Str
  updated_at : Int
deriving DecidableEq, Repr

structure WikiState where
  cache : Option WikiNewsItem
  cacheDate : Str
  lastFetchTime : Int
deriving DecidableEq, Repr

/-- Parts of a calendar instant as read off a JavaScript `Date`:
`getFullYear()`, `toLocaleString` month name, `getDate()`. -/
structure DateParts where
  year : Int
  month : Str
  day : Int
deriving DecidableEq, Repr

def dayMs : Int := 24 * 60 * 60 * 1000

def intStr (n : Int) : Str := (toString n).toList

/-- The upstream URL built for a subject instant. -/
def wikiUrl (dp : DateParts) : Str :=
  str "https://en.wikipedia.org/wiki/Portal:Current_events/" ++
    intStr dp.year ++ str "_" ++ dp.month ++ str "_" ++ intStr dp.day

/-- The feed's human-formatted subject date. -/
def wikiFormattedDate (dp : DateParts) : Str :=
  dp.month ++ str " " ++ intStr dp.day ++ str ", " ++ intStr dp.year

/-- The try/catch body of `ServiceWikiNews.#fetch` (executed on a cache
miss): build the previous-day URL, issue the request, extract, cache
and return; on any failure fall back to the cache, or propagate the
failure when no cache exists. -/
def wikiFetchMiss (localeTime : Int → Str) (dateParts : Int → DateParts)
    (now : Int) (today : Str) (upstream : UpstreamResult) (st : WikiState) :
    Except Unit WikiNewsItem × WikiState × Bool :=
  match upstream with
  | .fail =>
    match st.cache with
    | some c => (.ok c, st, true)
    | none => (.error (), st, true)
  | .ok html =>
    let dp := dateParts (now - dayMs)
    let url := wikiUrl dp
    let newsCategories := extractNewsContent html
    let data : WikiNewsItem :=
      { date := wikiFormattedDate dp
        news := newsCategories
        source_url := url
        updated := localeTime now
        updated_at := now }
    (.ok data, { cache := some data, cacheDate := today, lastFetchTime := now }, true)

/-- `ServiceWikiNews.#fetch`: subject-date keyed cache — the entry is
valid while the locale date string of now (slashes replaced by dashes)
equals the stored key. -/
def wikiFetch (localeDate localeTime : Int → Str) (dateParts : Int → DateParts)
    (now : Int) (upstream : UpstreamResult) (st : WikiState) :
    Except Unit WikiNewsItem × WikiState × Bool :=
  let today := replaceAll (str "/") (str "-") (localeDate now)
  match st.cache with
  | some c =>
    if st.cacheDate = today then (.ok c, st, false)
    else wikiFetchMiss localeTime dateParts now today upstream st
  | none => wikiFetchMiss localeTime dateParts now today upstream st

structure ReadhubEntry where
  title : Str
  link : Str
deriving DecidableEq, Repr

structure ReadhubNewsItem where
  date : Str
  news : List ReadhubEntry
  tip : Str
  updated : Str
  updated_at : Int
deriving DecidableEq, Repr

structure ReadhubState where
  cache : Option ReadhubNewsItem
  cacheTime : Int
deriving DecidableEq, Repr

def cacheDuration : Int := 30 * 60 * 1000

/-- Try to match the Readhub article pattern at the start of `s`: an
anchor opener, whitespace, a lazy gap up to the quoted topic target
(which must begin with the topic path and have at least one more
character), the rest of the tag, and a non-empty title with no markup
until the closing tag.  Returns the remainder, the captured target and
the raw title capture. -/
def tryReadhubAt (s : Str) : Option (Str × Str × Str) :=
  if strStarts (str "<a") s then
    match s.drop 2 with
    | [] => none
    | w :: r1 =>
      if isWsChar w then
        match seekBeforeP hrefPat (fun c => c = '>') r1 with
        | none => none
        | some (_, r2) =>
          if strStarts (str "/topic/") r2 then
            match splitFirst ['"'] (r2.drop 7) with
            | none => none
            | some (hrest, r3) =>
              if hrest = [] then none
              else
                match splitFirst ['>'] r3 with
                | none => none
                | some (_, r4) =>
                  match splitFirst ['<'] r4 with
                  | none => none
                  | some (title, r5) =>
                    if title = [] then none
                    else if strStarts (str "/a>") r5 then
                      some (r5.drop 3, str "/topic/" ++ hrest, title)
                    else none
          else none
      else none
  else none

/-- The exec loop over the article pattern: push a title/link pair for
every match whose trimmed title is non-empty. -/
def readhubScanAux : Nat → Str → List ReadhubEntry → List ReadhubEntry
  | 0, _, acc => acc
  | _ + 1, [], acc => acc
  | n + 1, c :: rest, acc =>
    match tryReadhubAt (c :: rest) with
    | some (rem, href, title) =>
      let t := trimStr title
      let acc2 :=
        if t = [] then acc
        else acc ++ [{ title := t, link := str "https://readhub.cn" ++ href }]
      readhubScanAux n rem acc2
    | none => readhubScanAux n rest acc

def parseReadhub (html : Str) : List ReadhubEntry :=
  readhubScanAux (html.length + 1) html []

def readhubTip : Str := str "万物之中，希望至美"

/-- The try/catch body of `ServiceReadhub.#fetch` (executed on a cache
miss). -/
def readhubFetchMiss (localeDate localeTime : Int → Str) (now : Int)
    (upstream : UpstreamResult) (st : ReadhubState) :
    Except Unit ReadhubNewsItem × ReadhubState × Bool :=
  match upstream with
  | .fail =>
    match st.cache with
    | some c => (.ok c, st, true)
    | none => (.error (), st, true)
  | .ok html =>
    let data : ReadhubNewsItem :=
      { date := localeDate now
        news := parseReadhub html
        tip := readhubTip
        updated := localeTime now
        updated_at := now }
    (.ok data, { cache := some data, cacheTime := now }, true)

/-- `ServiceReadhub.#fetch`: duration-keyed cache — the entry is valid
while less than the fixed window has elapsed since the last successful
fetch. -/
def readhubFetch (localeDate localeTime : Int → Str) (now : Int)
    (upstream : UpstreamResult) (st : ReadhubState) :
    Except Unit ReadhubNewsItem × ReadhubState × Bool :=
  match st.cache with
  | some c =>
    if now - st.cacheTime < cacheDuration then (.ok c, st, false)
    else readhubFetchMiss localeDate localeTime now upstream st
  | none => readhubFetchMiss localeDate localeTime now upstream st

/-! ## Basic scanner lemmas -/

theorem strStarts_append_self (pat ys : Str) : strStarts pat (pat ++ ys) = true := by
  induction pat with
  | nil => rfl
  | cons p ps ih => simpa [strStarts] using ih

theorem splitFirst_cons_self (p : Char) (ps ys : Str) :
    splitFirst (p :: ps) ((p :: ps) ++ ys) = some ([], ys) := by
  have h1 : strStarts (p :: ps) ((p :: ps) ++ ys) = true := strStarts_append_self _ _
  have h2 : List.drop (p :: ps).length ((p :: ps) ++ ys) = ys := List.drop_left _ _
  rw [List.cons_append] at h1 h2 ⊢
  rw [splitFirst, if_pos h1, h2]

theorem one_le_length_ite {α : Type} [DecidableEq α] (l : List α) (x : α) :
    1 ≤ (if l = [] then [x] else l).length := by
  split
  · simp
  · rename_i hne
    exact List.length_pos.mpr hne

theorem strStarts_eq_false_of_failsIn (pat xs ys : Str) (h : failsIn pat xs = true) :
    strStarts pat (xs ++ ys) = false := by
  induction pat generalizing xs with
  | nil => simp [failsIn] at h
  | cons p ps ih =>
    cases xs with
    | nil => simp [failsIn] at h
    | cons x xs2 =>
      by_cases hpx : p = x
      · subst hpx
        rw [failsIn, if_pos rfl] at h
        simpa [strStarts] using ih xs2 h
      · simp [strStarts, hpx]

theorem splitFirst_append_noStart (pat xs ys : Str) (h : noStartIn pat xs = true) :
    splitFirst pat (xs ++ ys) =
      (splitFirst pat ys).map (fun q => (xs ++ q.1, q.2)) := by
  induction xs with
  | nil =>
    cases h2 : splitFirst pat ys <;> simp [h2]
  | cons x xs2 ih =>
    rw [noStartIn, Bool.and_eq_true] at h
    have hs : strStarts pat ((x :: xs2) ++ ys) = false :=
      strStarts_eq_false_of_failsIn pat (x :: xs2) ys h.1
    rw [List.cons_append] at hs ⊢
    rw [splitFirst, if_neg (by simp [hs]), ih h.2]
    cases h2 : splitFirst pat ys <;> simp

theorem noStartIn_of_head_notMem (c : Char) (cs xs : Str) (h : ∀ x ∈ xs, x ≠ c) :
    noStartIn (c :: cs) xs = true := by
  induction xs with
  | nil => rfl
  | cons x xs2 ih =>
    have hx : x ≠ c := h x (by simp)
    rw [noStartIn, Bool.and_eq_true]
    exact ⟨by rw [failsIn, if_neg (fun hc => hx hc.symm)],
           ih (fun y hy => h y (by simp [hy]))⟩

theorem splitFirst_eq_none_of_hasSub_false (pat s : Str) (h : hasSub pat s = false) :
    splitFirst pat s = none := by
  unfold hasSub at h
  cases h2 : splitFirst pat s
  · rfl
  · rw [h2] at h
    simp at h

theorem splitOnSub_of_no_occurrence (pat s : Str) (h : hasSub pat s = false) :
    splitOnSub pat s = [s] := by
  rw [splitOnSub, splitOnSubAux, splitFirst_eq_none_of_hasSub_false pat s h]

theorem splitFirst_head_self (x : Char) (rest : Str) :
    splitFirst [x] (x :: rest) = some ([], rest) := by
  simp [splitFirst, strStarts]

theorem splitFirst_singleton_none (x : Char) (s : Str) (h : x ∉ s) :
    splitFirst [x] s = none := by
  induction s with
  | nil => simp [splitFirst, strStarts]
  | cons c rest ih =>
    have hx : x ≠ c := fun h2 => h (h2 ▸ List.mem_cons_self _ _)
    have hs : strStarts [x] (c :: rest) = false := by simp [strStarts, hx]
    rw [splitFirst, if_neg (by simp [hs]),
        ih (fun hm => h (List.mem_cons_of_mem _ hm))]

theorem splitFirst_skip {pat xs ys pre post : Str} (h : noStartIn pat xs = true)
    (h2 : splitFirst pat ys = some (pre, post)) :
    splitFirst pat (xs ++ ys) = some (xs ++ pre, post) := by
  rw [splitFirst_append_noStart pat xs ys h, h2, Option.map]

theorem tagReplaceAux_step {o c i ap s pre r1 x r2 inner post : Str} {n : Nat}
    (h1 : splitFirst o s = some (pre, r1))
    (h2 : splitFirst ['>'] r1 = some (x, r2))
    (h3 : splitFirst c r2 = some (inner, post)) :
    tagReplaceAux o c i ap (n + 1) s =
      pre ++ i ++ inner ++ ap ++ tagReplaceAux o c i ap n post := by
  simp [tagReplaceAux, h1, h2, h3]

theorem tagReplaceAux_noMatch {o c i ap s : Str} (h : splitFirst o s = none) :
    ∀ fuel, tagReplaceAux o c i ap fuel s = s := by
  intro fuel
  cases fuel with
  | zero => rfl
  | succ n => simp [tagReplaceAux, h]

theorem tagReplaceAux_one {o c i ap s p1 r1 x1 r2 i1 : Str} {n : Nat}
    (h1 : splitFirst o s = some (p1, r1))
    (h2 : splitFirst ['>'] r1 = some (x1, r2))
    (h3 : splitFirst c r2 = some (i1, []))
    (h7 : splitFirst o [] = none) :
    tagReplaceAux o c i ap (n + 1) s = p1 ++ i ++ i1 ++ ap ++ [] := by
  rw [tagReplaceAux_step h1 h2 h3, tagReplaceAux_noMatch h7 n]

theorem tagReplaceAux_two {o c i ap s p1 r1 x1 r2 i1 post1 p2 r3 x2 r4 i2 : Str}
    {n : Nat}
    (h1 : splitFirst o s = some (p1, r1))
    (h2 : splitFirst ['>'] r1 = some (x1, r2))
    (h3 : splitFirst c r2 = some (i1, post1))
    (h4 : splitFirst o post1 = some (p2, r3))
    (h5 : splitFirst ['>'] r3 = some (x2, r4))
    (h6 : splitFirst c r4 = some (i2, []))
    (h7 : splitFirst o [] = none)
    (hn : n ≠ 0) :
    tagReplaceAux o c i ap (n + 1) s =
      p1 ++ i ++ i1 ++ ap ++ (p2 ++ i ++ i2 ++ ap ++ []) := by
  rw [tagReplaceAux_step h1 h2 h3]
  cases n with
  | zero => exact absurd rfl hn
  | succ m =>
    rw [tagReplaceAux_step h4 h5 h6, tagReplaceAux_noMatch h7 m]

/-! ## Claim theorems -/

/-- C1: for every input string, the extractor returns normally (it is a
total function in this embedding, mirroring the try/catch boundary of
the source) and the returned category sequence is non-empty: every
return path of the source either yields the accumulated categories,
guarded to be non-empty, or a single synthetic diagnostic category. -/
theorem extractNewsContent_total_nonempty (html : Str) :
    1 ≤ (extractNewsContent html).length := by
  unfold extractNewsContent
  cases h : firstContentDivMatch html with
  | none => simp
  | some d =>
    dsimp only
    split
    · simp
    · exact one_le_length_ite _ _

/-- C9: the extractor is deterministic — two runs on identical input
produce structurally identical output.  In this embedding the whole
pipeline is a pure function of its input, so the two runs are the same
value. -/
theorem extractNewsContent_deterministic (html : Str) :
    extractNewsContent html = extractNewsContent html := rfl

/-- C6: for every input lacking the content-block marker class,
extraction returns exactly one category titled with the error sentinel
and carrying one non-empty diagnostic item. -/
theorem extractNewsContent_no_marker (html : Str)
    (h : hasSub contentDivMarker html = false) :
    extractNewsContent html =
      [{ title := str "Error",
         items := [{ text := str "No news content sections found in the HTML" }] }] := by
  unfold extractNewsContent firstContentDivMatch
  rw [splitFirst_eq_none_of_hasSub_false _ _ h]

/-- C6 witness: a concrete marker-free input takes the error-sentinel
path. -/
theorem extractNewsContent_no_marker_witness :
    hasSub contentDivMarker (str "hello") = false ∧
    extractNewsContent (str "hello") =
      [{ title := str "Error",
         items := [{ text := str "No news content sections found in the HTML" }] }] :=
  ⟨by decide, extractNewsContent_no_marker (str "hello") (by decide)⟩

/-- C5: when the content-block pattern matches but the matched block
contains no bold-heading marker, extraction returns exactly the
uncategorised sentinel with the fixed explanatory item. -/
theorem extractNewsContent_no_headings (html d : Str)
    (h1 : firstContentDivMatch html = some d)
    (h2 : hasSub pbMarker d = false) :
    extractNewsContent html =
      [{ title := str "Uncategorized",
         items := [{ text := str "No categories found in content" }] }] := by
  unfold extractNewsContent
  rw [h1]
  have h3 : splitOnSub pbMarker d = [d] := splitOnSub_of_no_occurrence _ _ h2
  dsimp only
  rw [h3]
  rfl

theorem plainScanAux_nodup (n : Nat) :
    ∀ (s : Str) (acc : List Str), acc.Nodup → ((plainScanAux n s acc).2).Nodup := by
  induction n with
  | zero => intro s acc h; exact h
  | succ n ih =>
    intro s acc h
    cases s with
    | nil => exact h
    | cons c rest =>
      cases htp : tryPlainAt (c :: rest) with
      | none => simpa [plainScanAux, htp] using ih rest acc h
      | some v =>
        obtain ⟨rem, repl, entry⟩ := v
        cases entry with
        | none => simpa [plainScanAux, htp] using ih rem acc h
        | some e =>
          by_cases he : e ∈ acc
          · simpa [plainScanAux, htp, he] using ih rem acc h
          · have h2 : (acc ++ [e]).Nodup := by
              simp [List.nodup_append, h, List.disjoint_singleton, he]
            simpa [plainScanAux, htp, he] using ih rem (acc ++ [e]) h2

/-- C2 (amended): for every fragment, the annotation list produced by
link processing is the list of plain-anchor annotations followed by the
external-anchor annotations, and the plain-anchor annotations are
de-duplicated by exact label-plus-url string (no duplicates among
them); external-anchor annotations are appended without
de-duplication. -/
theorem processItemLinks_plain_dedup (html : Str) :
    (processItemLinks html).2 =
      (plainScanTop (extScanTop html).1).2 ++ (extScanTop html).2 ∧
    ((plainScanTop (extScanTop html).1).2).Nodup := by
  refine ⟨rfl, ?_⟩
  exact plainScanAux_nodup _ _ [] List.nodup_nil

/-- C2 counterexample: a list-item fragment holding an external-flagged
anchor and a plain anchor that share label and url produces an
annotation list with that pair twice, so the claimed global
de-duplication by exact label-plus-url fails. -/
theorem processItemLinks_dup_counterexample :
    extractCategoryItems
        (str "<li><a class=\"external\" href=\"https://e.com/x\">L</a><a href=\"https://e.com/x\">L</a></li>") =
      [{ text := str "L [L (https://e.com/x), L (https://e.com/x)]" }] ∧
    ¬ ((processItemLinks
        (str "<a class=\"external\" href=\"https://e.com/x\">L</a><a href=\"https://e.com/x\">L</a>")).2).Nodup := by
  constructor
  · decide
  · decide

/-- C7: the plain-anchor annotation resolves a target with a leading
slash by prefixing the Wikipedia origin, and keeps any other target
unchanged. -/
theorem plainLinkEntry_resolution (href text : Str) :
    (href.headD ' ' = '/' →
      plainLinkEntry href text = text ++ str " (" ++ wikipediaOrigin ++ href ++ str ")") ∧
    (href.headD ' ' ≠ '/' →
      plainLinkEntry href text = text ++ str " (" ++ href ++ str ")") := by
  constructor <;> intro h
  · unfold plainLinkEntry resolveHref
    rw [if_pos h]
    simp [List.append_assoc]
  · unfold plainLinkEntry resolveHref
    rw [if_neg h]

/-- C7 witness: a relative target gets the origin prefixed; an absolute
target is left unchanged. -/
theorem plainLinkEntry_resolution_witness :
    plainLinkEntry (str "/x") (str "L") = str "L (https://en.wikipedia.org/x)" ∧
    plainLinkEntry (str "https://y.org/a") (str "L") = str "L (https://y.org/a)" :=
  ⟨((plainLinkEntry_resolution (str "/x") (str "L")).1 (by decide)).trans (by decide),
   ((plainLinkEntry_resolution (str "https://y.org/a") (str "L")).2 (by decide)).trans (by decide)⟩

/-- C8: for an item whose markup is a prose introduction followed by a
nested two-bullet sub-list (markup-free prose segments), the cleaning
pipeline's pre-strip conversion turns the sub-list into inline textual
markers — the list-intro colon marker replacing the list wrapper and a
bullet marker before each bullet — and the result then passes the
tag-stripping stage unchanged, so the sub-structure survives as flat
prose. -/
theorem nested_list_inline_markers (intro a b : Str)
    (hi : ∀ x ∈ intro, x ≠ '<') (ha : ∀ x ∈ a, x ≠ '<') (hb : ∀ x ∈ b, x ≠ '<') :
    liReplace (ulReplace
        (intro ++ str "<ul><li>" ++ a ++ str "</li><li>" ++ b ++ str "</li></ul>")) =
      intro ++ str ": " ++ str "• " ++ a ++ str " " ++ str "• " ++ b ++ str " " ∧
    stripTags (intro ++ str ": " ++ str "• " ++ a ++ str " " ++ str "• " ++ b ++ str " ") =
      intro ++ str ": " ++ str "• " ++ a ++ str " " ++ str "• " ++ b ++ str " " := by
  constructor
  · -- the pre-strip conversion
    have hS : intro ++ str "<ul><li>" ++ a ++ str "</li><li>" ++ b ++ str "</li></ul>"
        = intro ++ (str "<ul" ++ ('>' :: (str "<li>" ++
            (a ++ (str "</li><li>" ++ (b ++ (str "</li>" ++ str "</ul>"))))))) := by
      have e1 : str "<ul><li>" = str "<ul" ++ ('>' :: str "<li>") := by decide
      have e2 : str "</li></ul>" = str "</li>" ++ str "</ul>" := by decide
      rw [e1, e2]
      simp [List.append_assoc]
    have g1 : splitFirst (str "</ul>") (str "</li>" ++ str "</ul>")
        = some (str "</li>", []) := by decide
    have g2 : splitFirst (str "</ul>") (b ++ (str "</li>" ++ str "</ul>"))
        = some (b ++ str "</li>", []) :=
      splitFirst_skip (noStartIn_of_head_notMem '<' (str "/ul>") b hb) g1
    have g3 : splitFirst (str "</ul>") (str "</li><li>" ++ (b ++ (str "</li>" ++ str "</ul>")))
        = some (str "</li><li>" ++ (b ++ str "</li>"), []) :=
      splitFirst_skip (by decide) g2
    have g4 : splitFirst (str "</ul>")
          (a ++ (str "</li><li>" ++ (b ++ (str "</li>" ++ str "</ul>"))))
        = some (a ++ (str "</li><li>" ++ (b ++ str "</li>")), []) :=
      splitFirst_skip (noStartIn_of_head_notMem '<' (str "/ul>") a ha) g3
    have g5 : splitFirst (str "</ul>")
          (str "<li>" ++ (a ++ (str "</li><li>" ++ (b ++ (str "</li>" ++ str "</ul>")))))
        = some (str "<li>" ++ (a ++ (str "</li><li>" ++ (b ++ str "</li>"))), []) :=
      splitFirst_skip (by decide) g4
    have f2 : splitFirst ['>'] ('>' :: (str "<li>" ++
          (a ++ (str "</li><li>" ++ (b ++ (str "</li>" ++ str "</ul>"))))))
        = some ([], str "<li>" ++
            (a ++ (str "</li><li>" ++ (b ++ (str "</li>" ++ str "</ul>"))))) :=
      splitFirst_head_self '>' _
    have f1 : splitFirst (str "<ul")
          (intro ++ (str "<ul" ++ ('>' :: (str "<li>" ++
            (a ++ (str "</li><li>" ++ (b ++ (str "</li>" ++ str "</ul>"))))))))
        = some (intro ++ [], '>' :: (str "<li>" ++
            (a ++ (str "</li><li>" ++ (b ++ (str "</li>" ++ str "</ul>")))))) :=
      splitFirst_skip (noStartIn_of_head_notMem '<' (str "ul") intro hi)
        (splitFirst_cons_self '<' (str "ul") _)
    have hUL : ulReplace
          (intro ++ str "<ul><li>" ++ a ++ str "</li><li>" ++ b ++ str "</li></ul>")
        = (intro ++ []) ++ str ": " ++
            (str "<li>" ++ (a ++ (str "</li><li>" ++ (b ++ str "</li>")))) ++ [] ++ [] := by
      simp only [ulReplace]
      rw [hS, tagReplaceAux_one f1 f2 g5 (by decide)]
    have hV : (intro ++ []) ++ str ": " ++
          (str "<li>" ++ (a ++ (str "</li><li>" ++ (b ++ str "</li>")))) ++ [] ++ []
        = intro ++ (str ": " ++ (str "<li>" ++
            (a ++ (str "</li><li>" ++ (b ++ str "</li>"))))) := by
      simp [List.append_assoc]
    have m3i : splitFirst (str "</li>") (str "</li><li>" ++ (b ++ str "</li>"))
        = some ([], str "<li>" ++ (b ++ str "</li>")) :=
      splitFirst_cons_self '<' (str "/li>") _
    have m3 : splitFirst (str "</li>") (a ++ (str "</li><li>" ++ (b ++ str "</li>")))
        = some (a ++ [], str "<li>" ++ (b ++ str "</li>")) :=
      splitFirst_skip (noStartIn_of_head_notMem '<' (str "/li>") a ha) m3i
    have m2 : splitFirst ['>'] ('>' :: (a ++ (str "</li><li>" ++ (b ++ str "</li>"))))
        = some ([], a ++ (str "</li><li>" ++ (b ++ str "</li>"))) :=
      splitFirst_head_self '>' _
    have m1i : splitFirst (str "<li")
          (str "<li>" ++ (a ++ (str "</li><li>" ++ (b ++ str "</li>"))))
        = some ([], '>' :: (a ++ (str "</li><li>" ++ (b ++ str "</li>")))) :=
      splitFirst_cons_self '<' (str "li") _
    have m1ii : splitFirst (str "<li")
          (str ": " ++ (str "<li>" ++ (a ++ (str "</li><li>" ++ (b ++ str "</li>")))))
        = some (str ": " ++ [], '>' :: (a ++ (str "</li><li>" ++ (b ++ str "</li>")))) :=
      splitFirst_skip (by decide) m1i
    have m1 : splitFirst (str "<li")
          (intro ++ (str ": " ++ (str "<li>" ++
            (a ++ (str "</li><li>" ++ (b ++ str "</li>"))))))
        = some (intro ++ (str ": " ++ []),
            '>' :: (a ++ (str "</li><li>" ++ (b ++ str "</li>")))) :=
      splitFirst_skip (noStartIn_of_head_notMem '<' (str "li") intro hi) m1ii
    have w1 : splitFirst (str "<li") (str "<li>" ++ (b ++ str "</li>"))
        = some ([], '>' :: (b ++ str "</li>")) :=
      splitFirst_cons_self '<' (str "li") _
    have w2 : splitFirst ['>'] ('>' :: (b ++ str "</li>"))
        = some ([], b ++ str "</li>") :=
      splitFirst_head_self '>' _
    have w3i : splitFirst (str "</li>") (str "</li>") = some ([], []) := by decide
    have w3 : splitFirst (str "</li>") (b ++ str "</li>") = some (b ++ [], []) :=
      splitFirst_skip (noStartIn_of_head_notMem '<' (str "/li>") b hb) w3i
    have hVne : (intro ++ (str ": " ++ (str "<li>" ++
          (a ++ (str "</li><li>" ++ (b ++ str "</li>")))))).length ≠ 0 := by
      intro h0
      rw [List.length_eq_zero] at h0
      rcases List.append_eq_nil.mp h0 with ⟨h1, h2⟩
      rcases List.append_eq_nil.mp h2 with ⟨h3, h4⟩
      exact absurd h3 (by decide)
    have main : liReplace (intro ++ (str ": " ++ (str "<li>" ++
          (a ++ (str "</li><li>" ++ (b ++ str "</li>"))))))
        = (intro ++ (str ": " ++ [])) ++ str "• " ++ (a ++ []) ++ [' '] ++
            ([] ++ str "• " ++ (b ++ []) ++ [' '] ++ []) := by
      simp only [liReplace]
      rw [tagReplaceAux_two m1 m2 m3 w1 w2 w3 (by decide) hVne]
    rw [hUL, hV, main]
    have hsp : str " " = [' '] := by decide
    rw [hsp]
    simp [List.append_assoc]
  · -- the converted text passes tag-stripping unchanged
    have hmem : '<' ∉ intro ++ str ": " ++ str "• " ++ a ++ str " " ++
        str "• " ++ b ++ str " " := by
      intro hm
      rcases List.mem_append.mp hm with hm | hm
      rcases List.mem_append.mp hm with hm | hm
      rcases List.mem_append.mp hm with hm | hm
      rcases List.mem_append.mp hm with hm | hm
      rcases List.mem_append.mp hm with hm | hm
      rcases List.mem_append.mp hm with hm | hm
      rcases List.mem_append.mp hm with hm | hm
      · exact hi '<' hm rfl
      · exact absurd hm (by decide)
      · exact absurd hm (by decide)
      · exact ha '<' hm rfl
      · exact absurd hm (by decide)
      · exact absurd hm (by decide)
      · exact hb '<' hm rfl
      · exact absurd hm (by decide)
    have h0 : splitFirst ['<'] (intro ++ str ": " ++ str "• " ++ a ++ str " " ++
        str "• " ++ b ++ str " ") = none := splitFirst_singleton_none '<' _ hmem
    simp only [stripTags]
    rw [stripTagsAux, h0]

/-- C8 witness: a concrete item with a nested two-bullet sub-list is
converted to the inline colon and bullet markers and is unchanged by
tag-stripping. -/
theorem nested_list_inline_markers_witness :
    liReplace (ulReplace (str "Intro<ul><li>A</li><li>B</li></ul>")) =
      str "Intro: • A • B " ∧
    stripTags (str "Intro: • A • B ") = str "Intro: • A • B " := by
  have h := nested_list_inline_markers (str "Intro") (str "A") (str "B")
    (by decide) (by decide) (by decide)
  constructor
  · exact (by decide : str "Intro<ul><li>A</li><li>B</li></ul>" =
      str "Intro" ++ str "<ul><li>" ++ str "A" ++ str "</li><li>" ++ str "B" ++ str "</li></ul>") ▸
      (h.1.trans (by decide))
  · exact (by decide : str "Intro: • A • B " =
      str "Intro" ++ str ": " ++ str "• " ++ str "A" ++ str " " ++ str "• " ++ str "B" ++ str " ") ▸
      (h.2.trans (by decide))

/-- C3: when the upstream request fails, a fetch with an existing cache
entry answers with the cached feed and leaves the cache state
unchanged, and a fetch without one fails the whole operation; this
holds for both the subject-date keyed and the duration-keyed service. -/
theorem fetch_failure_fallback (localeDate localeTime : Int → Str)
    (dateParts : Int → DateParts) (now : Int) (wst : WikiState) (rst : ReadhubState) :
    (∀ c, wst.cache = some c →
      (wikiFetch localeDate localeTime dateParts now .fail wst).1 = .ok c ∧
      (wikiFetch localeDate localeTime dateParts now .fail wst).2.1 = wst) ∧
    (wst.cache = none →
      wikiFetch localeDate localeTime dateParts now .fail wst = (.error (), wst, true)) ∧
    (∀ c, rst.cache = some c →
      (readhubFetch localeDate localeTime now .fail rst).1 = .ok c ∧
      (readhubFetch localeDate localeTime now .fail rst).2.1 = rst) ∧
    (rst.cache = none →
      readhubFetch localeDate localeTime now .fail rst = (.error (), rst, true)) := by
  refine ⟨?_, ?_, ?_, ?_⟩
  · intro c hc
    simp only [wikiFetch, hc]
    split
    · exact ⟨rfl, rfl⟩
    · simp [wikiFetchMiss, hc]
  · intro hc
    simp [wikiFetch, hc, wikiFetchMiss]
  · intro c hc
    simp only [readhubFetch, hc]
    split
    · exact ⟨rfl, rfl⟩
    · simp [readhubFetchMiss, hc]
  · intro hc
    simp [readhubFetch, hc, readhubFetchMiss]

/-- C3 witness: with a failing upstream, a populated subject-date cache
is served unchanged, and an empty duration cache propagates the
failure. -/
theorem fetch_failure_fallback_witness :
    (wikiFetch (fun _ => []) (fun _ => []) (fun _ => { year := 0, month := [], day := 0 })
        0 .fail { cache := some { date := [], news := [], source_url := [], updated := [], updated_at := 0 },
                  cacheDate := [], lastFetchTime := 0 }).1 =
      .ok { date := [], news := [], source_url := [], updated := [], updated_at := 0 } ∧
    readhubFetch (fun _ => []) (fun _ => []) 0 .fail { cache := none, cacheTime := 0 } =
      (.error (), { cache := none, cacheTime := 0 }, true) :=
  ⟨((fetch_failure_fallback (fun _ => []) (fun _ => [])
      (fun _ => { year := 0, month := [], day := 0 }) 0
      { cache := some { date := [], news := [], source_url := [], updated := [], updated_at := 0 },
        cacheDate := [], lastFetchTime := 0 }
      { cache := none, cacheTime := 0 }).1
      { date := [], news := [], source_url := [], updated := [], updated_at := 0 } rfl).1,
   (fetch_failure_fallback (fun _ => []) (fun _ => [])
      (fun _ => { year := 0, month := [], day := 0 }) 0
      { cache := some { date := [], news := [], source_url := [], updated := [], updated_at := 0 },
        cacheDate := [], lastFetchTime := 0 }
      { cache := none, cacheTime := 0 }).2.2.2 rfl⟩

/-- C4: a valid cache hit issues no upstream call, leaves the cache
state unchanged, and returns the exact feed last stored, for both
services: the subject-date keyed service hits when the stored key
equals the locale date string of now, and the duration-keyed service
hits exactly when strictly less than the thirty-minute window has
elapsed since the last successful fetch — once the window has elapsed,
the fetch issues an upstream call. -/
theorem cache_hit_policy (localeDate localeTime : Int → Str)
    (dateParts : Int → DateParts) (now : Int) (upstream : UpstreamResult)
    (wst : WikiState) (w : WikiNewsItem) (rst : ReadhubState) (c : ReadhubNewsItem)
    (hw : wst.cache = some w) (hc : rst.cache = some c) :
    (wst.cacheDate = replaceAll (str "/") (str "-") (localeDate now) →
      wikiFetch localeDate localeTime dateParts now upstream wst = (.ok w, wst, false)) ∧
    (now - rst.cacheTime < 30 * 60 * 1000 →
      readhubFetch localeDate localeTime now upstream rst = (.ok c, rst, false)) ∧
    (30 * 60 * 1000 ≤ now - rst.cacheTime →
      (readhubFetch localeDate localeTime now upstream rst).2.2 = true) := by
  refine ⟨?_, ?_, ?_⟩
  · intro htoday
    simp only [wikiFetch, hw]
    rw [if_pos htoday]
  · intro hlt
    have hlt2 : now - rst.cacheTime < cacheDuration := hlt
    simp only [readhubFetch, hc]
    rw [if_pos hlt2]
  · intro hge
    have hnlt : ¬ (now - rst.cacheTime < cacheDuration) := not_lt.mpr hge
    simp only [readhubFetch, hc]
    rw [if_neg hnlt]
    cases upstream with
    | ok html => rfl
    | fail =>
      simp only [readhubFetchMiss, hc]

/-- C4 witness: a subject-date keyed fetch whose stored key equals
today's key returns the stored feed with no upstream call and an
unchanged state; for the duration-keyed service, after a successful
fetch stored at time zero, a request twenty-nine minutes later is a
cache hit returning the stored feed with no upstream call, and a
request thirty-one minutes later issues an upstream call. -/
theorem cache_hit_policy_witness :
    wikiFetch (fun _ => []) (fun _ => []) (fun _ => { year := 0, month := [], day := 0 })
        0 .fail
        { cache := some { date := [], news := [], source_url := [], updated := [], updated_at := 0 },
          cacheDate := [], lastFetchTime := 0 } =
      (.ok { date := [], news := [], source_url := [], updated := [], updated_at := 0 },
       { cache := some { date := [], news := [], source_url := [], updated := [], updated_at := 0 },
         cacheDate := [], lastFetchTime := 0 }, false) ∧
    readhubFetch (fun _ => []) (fun _ => []) (29 * 60 * 1000) .fail
        { cache := some { date := [], news := [], tip := [], updated := [], updated_at := 0 },
          cacheTime := 0 } =
      (.ok { date := [], news := [], tip := [], updated := [], updated_at := 0 },
       { cache := some { date := [], news := [], tip := [], updated := [], updated_at := 0 },
         cacheTime := 0 }, false) ∧
    (readhubFetch (fun _ => []) (fun _ => []) (31 * 60 * 1000) .fail
        { cache := some { date := [], news := [], tip := [], updated := [], updated_at := 0 },
          cacheTime := 0 }).2.2 = true :=
  ⟨(cache_hit_policy (fun _ => []) (fun _ => [])
      (fun _ => { year := 0, month := [], day := 0 }) 0 .fail
      { cache := some { date := [], news := [], source_url := [], updated := [], updated_at := 0 },
        cacheDate := [], lastFetchTime := 0 }
      { date := [], news := [], source_url := [], updated := [], updated_at := 0 }
      { cache := some { date := [], news := [], tip := [], updated := [], updated_at := 0 },
        cacheTime := 0 }
      { date := [], news := [], tip := [], updated := [], updated_at := 0 }
      rfl rfl).1 (by decide),
   (cache_hit_policy (fun _ => []) (fun _ => [])
      (fun _ => { year := 0, month := [], day := 0 }) (29 * 60 * 1000) .fail
      { cache := some { date := [], news := [], source_url := [], updated := [], updated_at := 0 },
        cacheDate := [], lastFetchTime := 0 }
      { date := [], news := [], source_url := [], updated := [], updated_at := 0 }
      { cache := some { date := [], news := [], tip := [], updated := [], updated_at := 0 },
        cacheTime := 0 }
      { date := [], news := [], tip := [], updated := [], updated_at := 0 }
      rfl rfl).2.1 (by decide),
   (cache_hit_policy (fun _ => []) (fun _ => [])
      (fun _ => { year := 0, month := [], day := 0 }) (31 * 60 * 1000) .fail
      { cache := some { date := [], news := [], source_url := [], updated := [], updated_at := 0 },
        cacheDate := [], lastFetchTime := 0 }
      { date := [], news := [], source_url := [], updated := [], updated_at := 0 }
      { cache := some { date := [], news := [], tip := [], updated := [], updated_at := 0 },
        cacheTime := 0 }
      { date := [], news := [], tip := [], updated := [], updated_at := 0 }
      rfl rfl).2.2 (by decide)⟩

/-- C10: every cache-missing fetch of the subject-date keyed service
requests the page for the instant twenty-four hours before now and sets
the feed's date field to the formatted date of that same previous-day
instant, never of the fetch instant itself. -/
theorem wiki_fetch_prev_day (localeDate localeTime : Int → Str)
    (dateParts : Int → DateParts) (now : Int) (html : Str) (st : WikiState)
    (hmiss : st.cache = none ∨
      st.cacheDate ≠ replaceAll (str "/") (str "-") (localeDate now)) :
    (wikiFetch localeDate localeTime dateParts now (.ok html) st).1 =
      .ok { date := (dateParts (now - 24 * 60 * 60 * 1000)).month ++ str " " ++
                    intStr (dateParts (now - 24 * 60 * 60 * 1000)).day ++ str ", " ++
                    intStr (dateParts (now - 24 * 60 * 60 * 1000)).year
            news := extractNewsContent html
            source_url := str "https://en.wikipedia.org/wiki/Portal:Current_events/" ++
                          intStr (dateParts (now - 24 * 60 * 60 * 1000)).year ++ str "_" ++
                          (dateParts (now - 24 * 60 * 60 * 1000)).month ++ str "_" ++
                          intStr (dateParts (now - 24 * 60 * 60 * 1000)).day
            updated := localeTime now
            updated_at := now } ∧
    (wikiFetch localeDate localeTime dateParts now (.ok html) st).2.2 = true := by
  rcases hmiss with hc | hne
  · simp only [wikiFetch, hc]
    exact ⟨rfl, rfl⟩
  · cases hcc : st.cache with
    | none =>
      simp only [wikiFetch, hcc]
      exact ⟨rfl, rfl⟩
    | some c =>
      simp only [wikiFetch, hcc]
      rw [if_neg hne]
      exact ⟨rfl, rfl⟩

/-- C10 witness: a concrete cache-missing fetch produces the
previous-day URL and the previous-day formatted date. -/
theorem wiki_fetch_prev_day_witness :
    (wikiFetch (fun _ => []) (fun _ => [])
        (fun _ => { year := 2025, month := str "May", day := 4 })
        0 (.ok []) { cache := none, cacheDate := [], lastFetchTime := 0 }).1 =
      .ok { date := str "May 4, 2025",
            news := [{ title := str "Error",
                       items := [{ text := str "No news content sections found in the HTML" }] }],
            source_url := str "https://en.wikipedia.org/wiki/Portal:Current_events/2025_May_4",
            updated := [],
            updated_at := 0 } :=
  ((wiki_fetch_prev_day (fun _ => []) (fun _ => [])
    (fun _ => { year := 2025, month := str "May", day := 4 }) 0 []
    { cache := none, cacheDate := [], lastFetchTime := 0 } (Or.inl rfl)).1).trans
    (by exact congrArg Except.ok (by decide))

/-- C5 witness: a concrete input with a content block and no bold
headings yields the uncategorised sentinel. -/
theorem extractNewsContent_no_headings_witness :
    firstContentDivMatch (str "<div class=\"current-events-content description\">x</div>") =
      some (str "<div class=\"current-events-content description\">x</div>") ∧
    extractNewsContent (str "<div class=\"current-events-content description\">x</div>") =
      [{ title := str "Uncategorized",
         items := [{ text := str "No categories found in content" }] }] :=
  ⟨by decide,
   extractNewsContent_no_headings
     (str "<div class=\"current-events-content description\">x</div>")
     (str "<div class=\"current-events-content description\">x</div>")
     (by decide) (by decide)⟩
